import Mathlib

/-!
Verification of the likelihood strategies in `src/include/Likelihood.h`
(namespace `gpr`): the `Likelihood` interface with its unimplemented
defaults, `GaussianLikelihood` (plain marginal likelihood) and
`GaussianLogLikelihood` (log marginal likelihood with parameter
derivatives and per-output Jacobian).

Embedding conventions.

* Scalars (`TScalarType`, `HighPrecisionType = long double`) are embedded
  as exact real numbers.  `std::exp`, `std::log`, `std::sqrt`, `std::pow`
  and `M_PI` become `Real.exp`, `Real.log`, `Real.sqrt`, `Real.rpow` and
  `Real.pi`.
* The three `numeric_limits<long double>` constants used by the source
  are the x87 80-bit values: `epsilon() = 2⁻⁶³`, `min() = 2⁻¹⁶³⁸²` and
  `max()`, which we model as `2¹⁶³⁸⁴` (the exact value is
  `(2 − 2⁻⁶³)·2¹⁶³⁸³`; no claim depends on the gap).
* `GaussianLogLikelihood` branches on `std::isinf` of the summed value
  vector, so non-finite values must exist in the model: the computed
  value components live in an extended type `XR` (finite / ±∞ / NaN),
  and each component is obtained from its exact real value through the
  overflow rounding map `fl` (magnitudes beyond `max()` become signed
  infinities).  The summation is the left fold used by Eigen's `sum()`.
  `GaussianLikelihood` has no branch on finiteness, so its path stays in
  exact real arithmetic.
* The `GaussianProcess` accessors (`ComputeLabelMatrix`,
  `ComputeCoreMatrixWithDeterminant`, `ComputeDerivativeKernelMatrix`)
  are outside this repository; a `GP` record holds the matrices and the
  determinant they produce, per the model accessor contract.  Matrices
  are total functions `ℕ → ℕ → ℝ` together with the dimension fields
  `n` (training points), `t` (output columns) and `Drows`; entries
  outside the stated dimensions are irrelevant padding.  `VectorType`
  results are functions that are `0` outside the vector's length.
  The data-fit vector is the diagonal of `Yᵀ·C·Y`, one entry per output
  column, as the interface contract specifies for the label matrix.
* Exceptions (`throw` of a diagnostic string) are embedded as
  `Except LError`; each `LError` constructor corresponds to one family
  of thrown messages in the source.
-/

open Classical

noncomputable section

/-- Extended value of the working floating type: a finite exact real,
a signed infinity, or a quiet NaN.  This models the IEEE special values
that `GaussianLogLikelihood` inspects through `std::isinf`. -/
inductive XR where
  | fin (x : ℝ)
  | pinf
  | ninf
  | nan
deriving DecidableEq

/-- IEEE addition on extended values: NaN propagates, infinities of
opposite sign give NaN, an infinity absorbs finite summands. -/
def XR.add : XR → XR → XR
  | XR.nan, _ => XR.nan
  | _, XR.nan => XR.nan
  | XR.pinf, XR.ninf => XR.nan
  | XR.ninf, XR.pinf => XR.nan
  | XR.pinf, _ => XR.pinf
  | _, XR.pinf => XR.pinf
  | XR.ninf, _ => XR.ninf
  | _, XR.ninf => XR.ninf
  | XR.fin a, XR.fin b => XR.fin (a + b)

/-- Embedding of `std::isinf`: true exactly on the two infinities
(in particular, false on NaN). -/
def XR.isinf : XR → Bool
  | XR.pinf => true
  | XR.ninf => true
  | _ => false

/-- True exactly on finite extended values. -/
def XR.isFin : XR → Bool
  | XR.fin _ => true
  | _ => false

/-- Machine epsilon of `HighPrecisionType` (`long double`):
`LDBL_EPSILON = 2⁻⁶³`. -/
def epsLD : ℝ := 1 / 2 ^ 63

/-- Smallest positive normal `long double`:
`numeric_limits<long double>::min() = 2⁻¹⁶³⁸²`. -/
def minLD : ℝ := 1 / 2 ^ 16382

/-- Largest finite `long double`, modelled as `2¹⁶³⁸⁴` (the exact
`numeric_limits<long double>::max()` is `(2 − 2⁻⁶³)·2¹⁶³⁸³`). -/
def maxLD : ℝ := 2 ^ 16384

/-- Overflow rounding of an exact real result into the working floating
type: magnitudes beyond the largest finite value become signed
infinities, everything else is kept exactly. -/
def fl (x : ℝ) : XR :=
  if maxLD < x then XR.pinf else if x < -maxLD then XR.ninf else XR.fin x

/-- The data a `GaussianProcess` hands to a likelihood strategy through
the protected accessors: the label matrix `Y` (`n × t`), the core matrix
`C = inv(K + σI)` (`n × n`), the determinant of `K + σI`, and the
derivative kernel stack `D` (`Drows × n`, intended to be `p` stacked
`n × n` blocks). -/
structure GP where
  n : ℕ
  t : ℕ
  Drows : ℕ
  Y : ℕ → ℕ → ℝ
  C : ℕ → ℕ → ℝ
  det : ℝ
  D : ℕ → ℕ → ℝ

/-- The four strategy operations, used to name the operation inside a
`NotImplemented` failure. -/
inductive LOp where
  | evalOp
  | parameterDerivativesOp
  | valueAndParameterDerivativesOp
  | valueAndJacobianOp
deriving DecidableEq

/-- Structured form of the diagnostic strings thrown by `Likelihood.h`:
`notImplemented` for the base-class defaults, `detNegative` for
`GaussianLikelihood: determinant of K is smaller than zero` (carrying
the offending determinant), `likelihoodInfinite` for
`GaussianLogLikelihood: likelihood is infinite`, and `wrongDimension`
for `GaussianLogLikelihood: wrong dimension of derivative kernel
matrix`. -/
inductive LError where
  | notImplemented (op : LOp)
  | detNegative (d : ℝ)
  | likelihoodInfinite
  | wrongDimension
deriving DecidableEq

/-- Base class `Likelihood::operator()` (Likelihood.h:50): throws
unimplemented. -/
def likelihoodDefaultOperator (_gp : GP) : Except LError (ℕ → ℝ) :=
  Except.error (LError.notImplemented LOp.evalOp)

/-- Base class `Likelihood::GetParameterDerivatives` (Likelihood.h:54):
throws unimplemented. -/
def likelihoodDefaultGetParameterDerivatives (_gp : GP) :
    Except LError (ℕ → ℝ) :=
  Except.error (LError.notImplemented LOp.parameterDerivativesOp)

/-- Base class `Likelihood::GetValueAndParameterDerivatives`
(Likelihood.h:58): throws unimplemented. -/
def likelihoodDefaultGetValueAndParameterDerivatives (_gp : GP) :
    Except LError ((ℕ → ℝ) × (ℕ → ℝ)) :=
  Except.error (LError.notImplemented LOp.valueAndParameterDerivativesOp)

/-- Base class `Likelihood::GetValueAndJacobian` (Likelihood.h:62):
throws unimplemented. -/
def likelihoodDefaultGetValueAndJacobian (_gp : GP) :
    Except LError ((ℕ → ℝ) × (ℕ → ℕ → ℝ)) :=
  Except.error (LError.notImplemented LOp.valueAndJacobianOp)

/-- Diagonal entry `(Yᵀ·C·Y)_{ii}` of the data-fit product, the per-output
quadratic form used by both strategies. -/
def quadDiag (gp : GP) (i : ℕ) : ℝ :=
  ∑ a ∈ Finset.range gp.n, ∑ b ∈ Finset.range gp.n,
    gp.Y a i * gp.C a b * gp.Y b i

/-- Complexity penalty of `GaussianLikelihood` (Likelihood.h:126-133):
`1/√(min())` when the determinant is `≤ 0`, otherwise `1/√det`. -/
def gaussianLikelihoodCp (gp : GP) : ℝ :=
  if gp.det ≤ 0 then 1 / Real.sqrt minLD else 1 / Real.sqrt gp.det

/-- Constant term of `GaussianLikelihood` (Likelihood.h:136):
`1/(2π)^(n/2)` with real exponent `n/2`. -/
def gaussianLikelihoodCt (gp : GP) : ℝ :=
  1 / (2 * Real.pi) ^ ((gp.n : ℝ) / 2)

/-- Value vector returned by `GaussianLikelihood::operator()`
(Likelihood.h:138): `exp(-0.5·(YᵀCY)ᵢᵢ) · cp · ct` per output column. -/
def gaussianLikelihoodVec (gp : GP) : ℕ → ℝ := fun i =>
  if i < gp.t then
    Real.exp (-(1 / 2) * quadDiag gp i) * gaussianLikelihoodCp gp *
      gaussianLikelihoodCt gp
  else 0

/-- `GaussianLikelihood::operator()` (Likelihood.h:106-139): fails when
the determinant is below `-epsilon()`, otherwise returns the per-output
likelihood vector.  (The source computes the data fit before the
determinant test; both are pure, so the order is immaterial.) -/
def gaussianLikelihoodEval (gp : GP) : Except LError (ℕ → ℝ) :=
  if gp.det < -epsLD then Except.error (LError.detNegative gp.det)
  else Except.ok (gaussianLikelihoodVec gp)

/-- `GaussianLikelihood` does not override `GetParameterDerivatives`;
calls dispatch to the base default (Likelihood.h:54). -/
def gaussianLikelihoodGetParameterDerivatives : GP → Except LError (ℕ → ℝ) :=
  likelihoodDefaultGetParameterDerivatives

/-- `GaussianLikelihood` does not override
`GetValueAndParameterDerivatives`; calls dispatch to the base default
(Likelihood.h:58). -/
def gaussianLikelihoodGetValueAndParameterDerivatives :
    GP → Except LError ((ℕ → ℝ) × (ℕ → ℝ)) :=
  likelihoodDefaultGetValueAndParameterDerivatives

/-- `GaussianLikelihood` does not override `GetValueAndJacobian`; calls
dispatch to the base default (Likelihood.h:62). -/
def gaussianLikelihoodGetValueAndJacobian :
    GP → Except LError ((ℕ → ℝ) × (ℕ → ℕ → ℝ)) :=
  likelihoodDefaultGetValueAndJacobian

/-- Complexity penalty of `GaussianLogLikelihood` (Likelihood.h:180-188):
the determinant is clamped into `[min(), max()]` before the logarithm. -/
def gaussianLogLikelihoodCp (gp : GP) : ℝ :=
  if gp.det ≤ minLD then -(1 / 2) * Real.log minLD
  else if maxLD < gp.det then -(1 / 2) * Real.log maxLD
  else -(1 / 2) * Real.log gp.det

/-- Constant term of `GaussianLogLikelihood` (Likelihood.h:192):
`-(n/2)·log(2π)`. -/
def gaussianLogLikelihoodCt (gp : GP) : ℝ :=
  -((gp.n : ℝ) / 2) * Real.log (2 * Real.pi)

/-- Exact real value of the i-th component of the log-likelihood vector
`df.array() + (cp + ct)` (Likelihood.h:195). -/
def logValueExact (gp : GP) (i : ℕ) : ℝ :=
  -(1 / 2) * quadDiag gp i + (gaussianLogLikelihoodCp gp + gaussianLogLikelihoodCt gp)

/-- The stored log-likelihood value vector: each component is the exact
value pushed through overflow rounding. -/
def logValue (gp : GP) : ℕ → XR := fun i =>
  if i < gp.t then fl (logValueExact gp i) else XR.fin 0

/-- `value.array().sum()` over the first `t` components, as Eigen's
sequential accumulation: a left fold of IEEE addition. -/
def xrSum (t : ℕ) (v : ℕ → XR) : XR :=
  (List.range t).foldl (fun a i => XR.add a (v i)) (XR.fin 0)

/-- `GaussianLogLikelihood::operator()` (Likelihood.h:166-202): computes
the per-output log-likelihood vector and fails when `std::isinf` holds
of its sum. -/
def gaussianLogLikelihoodEval (gp : GP) : Except LError (ℕ → XR) :=
  if (xrSum gp.t (logValue gp)).isinf then Except.error LError.likelihoodInfinite
  else Except.ok (logValue gp)

/-- Matrix product with inner dimension `k`, on the padded-function
representation. -/
def matMul (k : ℕ) (A B : ℕ → ℕ → ℝ) : ℕ → ℕ → ℝ := fun i j =>
  ∑ c ∈ Finset.range k, A i c * B c j

/-- Trace of the leading `k × k` block. -/
def traceN (k : ℕ) (A : ℕ → ℕ → ℝ) : ℝ :=
  ∑ i ∈ Finset.range k, A i i

/-- `alpha = C * Y` (Likelihood.h:211), an `n × t` matrix. -/
def alphaM (gp : GP) : ℕ → ℕ → ℝ := matMul gp.n gp.C gp.Y

/-- `alpha * alpha.adjoint()`, an `n × n` matrix with inner dimension
`t` (the entries are real, so the adjoint is the transpose). -/
def aaT (gp : GP) : ℕ → ℕ → ℝ := fun i j =>
  ∑ c ∈ Finset.range gp.t, alphaM gp i c * alphaM gp j c

/-- `D.block(p*D.cols(), 0, D.cols(), D.cols())` (Likelihood.h:225):
the p-th stacked `n × n` block of the derivative kernel matrix. -/
def dBlock (gp : GP) (p : ℕ) : ℕ → ℕ → ℝ := fun i j =>
  gp.D (p * gp.n + i) j

/-- `num_params = D.rows() / D.cols()` in integer division
(Likelihood.h:217). -/
def numParams (gp : GP) : ℕ := gp.Drows / gp.n

/-- The dimension test of Likelihood.h:218: the real quotient
`D.rows()/D.cols()` differs from its integer truncation. -/
def dimCheckFails (gp : GP) : Prop :=
  (gp.Drows : ℝ) / (gp.n : ℝ) - (numParams gp : ℝ) ≠ 0

/-- `delta[p] = 0.5 * ((alpha*alphaᵀ - C) * D_p).trace()`
(Likelihood.h:225). -/
def deltaEntry (gp : GP) (p : ℕ) : ℝ :=
  (1 / 2) * traceN gp.n (matMul gp.n (fun i j => aaT gp i j - gp.C i j) (dBlock gp p))

/-- The derivative vector `delta`, zero-initialized of length
`num_params` and filled by the loop of Likelihood.h:224-226. -/
def deltaVec (gp : GP) : ℕ → ℝ := fun p =>
  if p < numParams gp then deltaEntry gp p else 0

/-- `GaussianLogLikelihood::GetParameterDerivatives`
(Likelihood.h:204-229): fails on a malformed derivative kernel stack,
otherwise returns `delta`. -/
def gaussianLogLikelihoodGetParameterDerivatives (gp : GP) :
    Except LError (ℕ → ℝ) :=
  if dimCheckFails gp then Except.error LError.wrongDimension
  else Except.ok (deltaVec gp)

/-- `GaussianLogLikelihood::GetValueAndParameterDerivatives`
(Likelihood.h:231-285): the value computation (with its infinity test)
followed by the derivative computation (with its dimension test). -/
def gaussianLogLikelihoodGetValueAndParameterDerivatives (gp : GP) :
    Except LError ((ℕ → XR) × (ℕ → ℝ)) :=
  if (xrSum gp.t (logValue gp)).isinf then Except.error LError.likelihoodInfinite
  else if dimCheckFails gp then Except.error LError.wrongDimension
  else Except.ok (logValue gp, deltaVec gp)

/-- `alpha = C * Y.col(i)` (Likelihood.h:336), the per-output column
version of `alphaM`. -/
def alphaCol (gp : GP) (i : ℕ) : ℕ → ℝ := fun r =>
  ∑ b ∈ Finset.range gp.n, gp.C r b * gp.Y b i

/-- `jacobian(i,p) = 0.5 * ((alpha*alphaᵀ - C) * D_p).trace()` for the
column vector `alpha = C·Y.col(i)` (Likelihood.h:339). -/
def jacEntry (gp : GP) (i p : ℕ) : ℝ :=
  (1 / 2) * traceN gp.n
    (matMul gp.n (fun r s => alphaCol gp i r * alphaCol gp i s - gp.C r s) (dBlock gp p))

/-- The Jacobian matrix, zero-initialized `t × num_params` and filled by
the double loop of Likelihood.h:335-341. -/
def jacMat (gp : GP) : ℕ → ℕ → ℝ := fun i p =>
  if i < gp.t ∧ p < numParams gp then jacEntry gp i p else 0

/-- `GaussianLogLikelihood::GetValueAndJacobian` (Likelihood.h:287-344):
the value computation (with its infinity test) followed by the Jacobian
computation (with its dimension test). -/
def gaussianLogLikelihoodGetValueAndJacobian (gp : GP) :
    Except LError ((ℕ → XR) × (ℕ → ℕ → ℝ)) :=
  if (xrSum gp.t (logValue gp)).isinf then Except.error LError.likelihoodInfinite
  else if dimCheckFails gp then Except.error LError.wrongDimension
  else Except.ok (logValue gp, jacMat gp)

/-- Success test on an embedded call result. -/
def isOkE {α : Type} : Except LError α → Bool
  | Except.ok _ => true
  | Except.error _ => false

/-! Basic facts about the floating-point constants. -/

lemma epsLD_pos : 0 < epsLD := by unfold epsLD; positivity

lemma minLD_pos : 0 < minLD := by unfold minLD; positivity

lemma maxLD_pos : 0 < maxLD := by unfold maxLD; positivity

lemma one_lt_two_pow_r {k : ℕ} (hk : k ≠ 0) : (1 : ℝ) < 2 ^ k :=
  one_lt_pow₀ one_lt_two hk

lemma minLD_lt_one : minLD < 1 := by
  unfold minLD
  rw [div_lt_one (by positivity)]
  exact one_lt_two_pow_r (by norm_num)

lemma epsLD_lt_one : epsLD < 1 := by
  unfold epsLD
  rw [div_lt_one (by positivity)]
  exact one_lt_two_pow_r (by norm_num)

lemma one_le_maxLD : 1 ≤ maxLD := by
  unfold maxLD
  exact le_of_lt (one_lt_two_pow_r (by norm_num))

lemma minLD_lt_epsLD : minLD < epsLD := by
  unfold minLD epsLD
  rw [div_lt_div_iff₀ (by positivity) (by positivity), one_mul, one_mul]
  exact pow_lt_pow_right₀ one_lt_two (by norm_num)

/-! Facts about overflow rounding and extended sums. -/

lemma fl_fin_of_abs_le {x : ℝ} (h : |x| ≤ maxLD) : fl x = XR.fin x := by
  rcases abs_le.mp h with ⟨h1, h2⟩
  unfold fl
  rw [if_neg (by linarith), if_neg (by linarith)]

lemma fl_eq_fin {x y : ℝ} (h : fl x = XR.fin y) : y = x := by
  unfold fl at h
  split at h
  · exact absurd h (by simp)
  · split at h
    · exact absurd h (by simp)
    · exact (XR.fin.inj h).symm

lemma fl_pinf_of {x : ℝ} (h : maxLD < x) : fl x = XR.pinf := by
  unfold fl; rw [if_pos h]

lemma fl_ninf_of {x : ℝ} (h : x < -maxLD) : fl x = XR.ninf := by
  unfold fl
  rw [if_neg (by linarith [maxLD_pos]), if_pos h]

lemma XR.add_fin_fin (a b : ℝ) : XR.add (XR.fin a) (XR.fin b) = XR.fin (a + b) := rfl

lemma XR.isFin_add {a b : XR} (ha : a.isFin = true) (hb : b.isFin = true) :
    (XR.add a b).isFin = true := by
  cases a <;> cases b <;> simp_all [XR.isFin, XR.add]

lemma XR.isinf_eq_false_of_isFin {a : XR} (ha : a.isFin = true) :
    a.isinf = false := by
  cases a <;> simp_all [XR.isFin, XR.isinf]

lemma xrSum_zero (v : ℕ → XR) : xrSum 0 v = XR.fin 0 := rfl

lemma xrSum_succ (t : ℕ) (v : ℕ → XR) :
    xrSum (t + 1) v = XR.add (xrSum t v) (v t) := by
  unfold xrSum
  rw [List.range_succ, List.foldl_append]
  rfl

lemma xrSum_isFin {t : ℕ} {v : ℕ → XR} (h : ∀ i, i < t → (v i).isFin = true) :
    (xrSum t v).isFin = true := by
  induction t with
  | zero => rfl
  | succ k ih =>
    rw [xrSum_succ]
    exact XR.isFin_add (ih fun i hi => h i (Nat.lt_succ_of_lt hi))
      (h k (Nat.lt_succ_self k))

lemma le_maxLD_of_le {x : ℝ} (h : x ≤ 16384) : x ≤ maxLD := by
  refine le_trans h ?_
  unfold maxLD
  calc (16384 : ℝ) = 2 ^ 14 := by norm_num
  _ ≤ 2 ^ 16384 := pow_le_pow_right₀ one_le_two (by norm_num)

lemma abs_le_maxLD_of_le {x : ℝ} (h : |x| ≤ 16384) : |x| ≤ maxLD :=
  le_maxLD_of_le h

/-! Bounds on the logarithms that appear in the clamped penalties. -/

lemma log_two_pi_pos : 0 < Real.log (2 * Real.pi) := by
  apply Real.log_pos
  have := Real.pi_gt_three
  linarith

lemma log_two_pi_le_seven : Real.log (2 * Real.pi) ≤ 7 := by
  have h1 : Real.log (2 * Real.pi) ≤ 2 * Real.pi - 1 :=
    Real.log_le_sub_one_of_pos (by positivity)
  have := Real.pi_lt_d2
  linarith

lemma log_two_lt_one : Real.log 2 < 1 := by
  have := Real.log_two_lt_d9
  linarith

lemma log_two_pos : 0 < Real.log 2 := Real.log_pos one_lt_two

lemma log_minLD_eq : Real.log minLD = -(16382 * Real.log 2) := by
  unfold minLD
  rw [one_div, Real.log_inv, Real.log_pow]
  norm_num

lemma abs_log_minLD_le : |Real.log minLD| ≤ 16382 := by
  rw [log_minLD_eq, abs_neg, abs_of_nonneg (by positivity)]
  nlinarith [log_two_pos, log_two_lt_one]

/-! The dimension test of the derivative-kernel stack. -/

lemma dimCheckFails_iff (gp : GP) (hn : 0 < gp.n) :
    dimCheckFails gp ↔ ¬ gp.n ∣ gp.Drows := by
  unfold dimCheckFails numParams
  have hn0 : (gp.n : ℝ) ≠ 0 := Nat.cast_ne_zero.mpr hn.ne'
  have hdecomp : (gp.Drows : ℝ) = gp.n * (gp.Drows / gp.n : ℕ) + (gp.Drows % gp.n : ℕ) := by
    exact_mod_cast (Nat.div_add_mod gp.Drows gp.n).symm
  constructor
  · intro h hdvd
    apply h
    obtain ⟨q, hq⟩ := hdvd
    have hdiv : gp.Drows / gp.n = q := by
      rw [hq]; exact Nat.mul_div_cancel_left q hn
    rw [hdiv, hq]
    push_cast
    field_simp
  · intro h
    have hmod : gp.Drows % gp.n ≠ 0 := fun hz =>
      h (Nat.dvd_iff_mod_eq_zero.mpr hz)
    have : (gp.Drows : ℝ) / gp.n - (gp.Drows / gp.n : ℕ) = (gp.Drows % gp.n : ℕ) / gp.n := by
      rw [hdecomp]
      field_simp
    rw [this]
    have : (0 : ℝ) < (gp.Drows % gp.n : ℕ) / gp.n := by
      apply div_pos _ (by exact_mod_cast hn)
      exact_mod_cast Nat.pos_of_ne_zero hmod
    exact ne_of_gt this

lemma dimCheck_passes_of_dvd (gp : GP) (hn : 0 < gp.n) (h : gp.n ∣ gp.Drows) :
    ¬ dimCheckFails gp := fun hf => ((dimCheckFails_iff gp hn).mp hf) h

/-! Positivity of the plain-likelihood factors. -/

lemma gaussianLikelihoodCp_pos (gp : GP) : 0 < gaussianLikelihoodCp gp := by
  unfold gaussianLikelihoodCp
  by_cases h : gp.det ≤ 0
  · rw [if_pos h]
    exact div_pos one_pos (Real.sqrt_pos.mpr minLD_pos)
  · rw [if_neg h]
    exact div_pos one_pos (Real.sqrt_pos.mpr (lt_of_not_le h))

lemma gaussianLikelihoodCt_pos (gp : GP) : 0 < gaussianLikelihoodCt gp := by
  unfold gaussianLikelihoodCt
  have htp : (0 : ℝ) < 2 * Real.pi := by positivity
  exact div_pos one_pos (Real.rpow_pos_of_pos htp _)

lemma gaussianLikelihoodVec_pos (gp : GP) {i : ℕ} (hi : i < gp.t) :
    0 < gaussianLikelihoodVec gp i := by
  unfold gaussianLikelihoodVec
  rw [if_pos hi]
  exact mul_pos (mul_pos (Real.exp_pos _) (gaussianLikelihoodCp_pos gp))
    (gaussianLikelihoodCt_pos gp)

/-! Generic evaluation lemmas. -/

lemma abs_log_two_pi_le : |Real.log (2 * Real.pi)| ≤ 7 :=
  abs_le.mpr ⟨by linarith [log_two_pi_pos], log_two_pi_le_seven⟩

lemma quadDiag_zero (gp : GP) (h : ∀ a b, gp.Y a b = 0) (i : ℕ) :
    quadDiag gp i = 0 := by
  simp [quadDiag, h]

lemma gaussianLogLikelihoodCp_det_one (gp : GP) (h : gp.det = 1) :
    gaussianLogLikelihoodCp gp = 0 := by
  unfold gaussianLogLikelihoodCp
  rw [h, if_neg (by linarith [minLD_lt_one]), if_neg (by linarith [one_le_maxLD]),
    Real.log_one, mul_zero]

lemma xrSum_isinf_false (gp : GP)
    (h : ∀ i, i < gp.t → |logValueExact gp i| ≤ maxLD) :
    (xrSum gp.t (logValue gp)).isinf = false := by
  apply XR.isinf_eq_false_of_isFin
  apply xrSum_isFin
  intro i hi
  unfold logValue
  rw [if_pos hi, fl_fin_of_abs_le (h i hi)]
  rfl

lemma logEval_ok_of_bounds (gp : GP)
    (h : ∀ i, i < gp.t → |logValueExact gp i| ≤ maxLD) :
    gaussianLogLikelihoodEval gp = Except.ok (logValue gp) := by
  unfold gaussianLogLikelihoodEval
  rw [xrSum_isinf_false gp h]
  simp

/-! Concrete model instances used in counterexamples and witnesses. -/

/-- A minimal well-behaved model: one training point, one output, zero
labels and core matrix, unit determinant, one zero derivative block. -/
def gpOne : GP where
  n := 1
  t := 1
  Drows := 1
  Y := fun _ _ => 0
  C := fun _ _ => 0
  det := 1
  D := fun _ _ => 0

/-- The same model with determinant `-1`, far below `-ε`. -/
def gpNeg : GP := { gpOne with det := -1 }

/-- A degenerate model (no training points) whose determinant sits
exactly at machine epsilon. -/
def gpEps : GP where
  n := 0
  t := 1
  Drows := 0
  Y := fun _ _ => 0
  C := fun _ _ => 0
  det := epsLD
  D := fun _ _ => 0

/-- Two outputs with data-fit terms overflowing to `+∞` and `-∞`
respectively, so the value-vector sum is NaN. -/
def gpBig : GP where
  n := 2
  t := 2
  Drows := 2
  Y := fun a c => if a = 0 ∧ c = 0 then 2 ^ 5000 else if a = 1 ∧ c = 1 then 2 ^ 5000 else 0
  C := fun a b => if a = 0 ∧ b = 0 then -(2 ^ 9000) else if a = 1 ∧ b = 1 then 2 ^ 9000 else 0
  det := 1
  D := fun _ _ => 0

/-- A single-output model whose data-fit term overflows to `+∞` while
the determinant is a perfectly representable `1`. -/
def gpOverflow : GP where
  n := 1
  t := 1
  Drows := 1
  Y := fun _ _ => 2 ^ 5000
  C := fun _ _ => -(2 ^ 9000)
  det := 1
  D := fun _ _ => 0

/-- A benign model whose derivative stack has 3 rows over 2 columns. -/
def gpDim : GP where
  n := 2
  t := 1
  Drows := 3
  Y := fun _ _ => 0
  C := fun _ _ => 0
  det := 1
  D := fun _ _ => 0

/-- A model with both failure causes: the derivative stack has 3 rows
over 2 columns and the value overflows to `+∞`. -/
def gpDimInf : GP where
  n := 2
  t := 1
  Drows := 3
  Y := fun a _ => if a = 0 then 2 ^ 5000 else 0
  C := fun a b => if a = 0 ∧ b = 0 then -(2 ^ 9000) else 0
  det := 1
  D := fun _ _ => 0

/-! Evaluation of the concrete models. -/

lemma abs_neg_half_mul {L B : ℝ} (h : |L| ≤ B) : |(-(1 / 2) : ℝ) * L| ≤ B / 2 := by
  rw [abs_mul, show |(-(1 / 2) : ℝ)| = 1 / 2 by norm_num]
  nlinarith [abs_nonneg L]

lemma gpOne_exact (i : ℕ) :
    logValueExact gpOne i = -(1 / 2) * Real.log (2 * Real.pi) := by
  unfold logValueExact gaussianLogLikelihoodCt
  rw [quadDiag_zero gpOne (fun _ _ => rfl), gaussianLogLikelihoodCp_det_one gpOne rfl]
  simp [gpOne]

lemma gpOne_bound : ∀ i, i < gpOne.t → |logValueExact gpOne i| ≤ maxLD := by
  intro i _
  rw [gpOne_exact]
  apply abs_le_maxLD_of_le
  linarith [abs_neg_half_mul abs_log_two_pi_le]

lemma gpOne_logEval : gaussianLogLikelihoodEval gpOne = Except.ok (logValue gpOne) :=
  logEval_ok_of_bounds gpOne gpOne_bound

lemma gpOne_v0 : logValue gpOne 0 = XR.fin (-(1 / 2) * Real.log (2 * Real.pi)) := by
  unfold logValue
  rw [if_pos (show 0 < gpOne.t by decide), gpOne_exact 0]
  apply fl_fin_of_abs_le
  rw [← gpOne_exact 0]
  exact gpOne_bound 0 (by decide)

lemma gpOne_plain :
    gaussianLikelihoodEval gpOne = Except.ok (gaussianLikelihoodVec gpOne) := by
  unfold gaussianLikelihoodEval
  rw [if_neg]
  show ¬ ((1 : ℝ) < -epsLD)
  linarith [epsLD_pos]

lemma gpOne_dimOk : ¬ dimCheckFails gpOne :=
  dimCheck_passes_of_dvd gpOne (by decide) ⟨1, rfl⟩

lemma gpOne_pd :
    gaussianLogLikelihoodGetParameterDerivatives gpOne = Except.ok (deltaVec gpOne) := by
  unfold gaussianLogLikelihoodGetParameterDerivatives
  rw [if_neg gpOne_dimOk]

lemma gpOne_vaj :
    gaussianLogLikelihoodGetValueAndJacobian gpOne =
      Except.ok (logValue gpOne, jacMat gpOne) := by
  unfold gaussianLogLikelihoodGetValueAndJacobian
  rw [xrSum_isinf_false gpOne gpOne_bound]
  simp [gpOne_dimOk]

lemma gpNeg_exact (i : ℕ) :
    logValueExact gpNeg i =
      -(1 / 2) * Real.log minLD + -(1 / 2) * Real.log (2 * Real.pi) := by
  unfold logValueExact gaussianLogLikelihoodCt gaussianLogLikelihoodCp
  rw [quadDiag_zero gpNeg (fun _ _ => rfl),
    if_pos (show gpNeg.det ≤ minLD by show (-1 : ℝ) ≤ minLD; linarith [minLD_pos])]
  simp [gpNeg, gpOne]

lemma gpNeg_bound : ∀ i, i < gpNeg.t → |logValueExact gpNeg i| ≤ maxLD := by
  intro i _
  rw [gpNeg_exact]
  apply abs_le_maxLD_of_le
  have h1 := abs_neg_half_mul abs_log_minLD_le
  have h2 := abs_neg_half_mul abs_log_two_pi_le
  calc |(-(1 / 2) * Real.log minLD + -(1 / 2) * Real.log (2 * Real.pi))|
      ≤ |(-(1 / 2) : ℝ) * Real.log minLD| + |(-(1 / 2) : ℝ) * Real.log (2 * Real.pi)| :=
        abs_add _ _
  _ ≤ 16384 := by linarith

lemma gpNeg_logEval : gaussianLogLikelihoodEval gpNeg = Except.ok (logValue gpNeg) :=
  logEval_ok_of_bounds gpNeg gpNeg_bound

lemma gpEps_plain :
    gaussianLikelihoodEval gpEps = Except.ok (gaussianLikelihoodVec gpEps) := by
  unfold gaussianLikelihoodEval
  rw [if_neg]
  show ¬ (epsLD < -epsLD)
  linarith [epsLD_pos]

lemma gpEps_vec0 : gaussianLikelihoodVec gpEps 0 = 1 / Real.sqrt epsLD := by
  unfold gaussianLikelihoodVec gaussianLikelihoodCp gaussianLikelihoodCt
  rw [if_pos (show 0 < gpEps.t by decide),
    quadDiag_zero gpEps (fun _ _ => rfl),
    if_neg (show ¬ gpEps.det ≤ 0 by show ¬ epsLD ≤ 0; linarith [epsLD_pos])]
  simp [gpEps, Real.rpow_zero]

lemma unclamped_ne_clamped : 1 / Real.sqrt epsLD ≠ 1 / Real.sqrt minLD := by
  have h1 : Real.sqrt minLD < Real.sqrt epsLD :=
    Real.sqrt_lt_sqrt minLD_pos.le minLD_lt_epsLD
  have h2 : 0 < Real.sqrt minLD := Real.sqrt_pos.mpr minLD_pos
  exact ne_of_lt (one_div_lt_one_div_of_lt h2 h1)

lemma big_pow_bound : maxLD + 7 < (1 / 2) * (2 : ℝ) ^ 19000 := by
  unfold maxLD
  have a : (2 : ℝ) ^ 16386 ≤ 2 ^ 19000 := pow_le_pow_right₀ one_le_two (by norm_num)
  have b : (2 : ℝ) ^ 16386 = 2 ^ 16384 * 2 * 2 := by
    rw [← pow_succ, ← pow_succ]
  have c : (8 : ℝ) ≤ 2 ^ 16384 := by
    calc (8 : ℝ) = 2 ^ 3 := by norm_num
    _ ≤ 2 ^ 16384 := pow_le_pow_right₀ one_le_two (by norm_num)
  linarith

lemma gpBig_quad0 : quadDiag gpBig 0 = -(2 ^ 19000) := by
  unfold quadDiag
  simp [gpBig, Finset.sum_range_succ]
  norm_num [← pow_add]

lemma gpBig_quad1 : quadDiag gpBig 1 = 2 ^ 19000 := by
  unfold quadDiag
  simp [gpBig, Finset.sum_range_succ]
  norm_num [← pow_add]

lemma gpBig_ct : gaussianLogLikelihoodCt gpBig = -Real.log (2 * Real.pi) := by
  unfold gaussianLogLikelihoodCt
  norm_num [gpBig]

lemma gpBig_exact0 :
    logValueExact gpBig 0 = (1 / 2) * 2 ^ 19000 - Real.log (2 * Real.pi) := by
  unfold logValueExact
  rw [gpBig_quad0, gaussianLogLikelihoodCp_det_one gpBig rfl, gpBig_ct]
  ring

lemma gpBig_exact1 :
    logValueExact gpBig 1 = -((1 / 2) * 2 ^ 19000) - Real.log (2 * Real.pi) := by
  unfold logValueExact
  rw [gpBig_quad1, gaussianLogLikelihoodCp_det_one gpBig rfl, gpBig_ct]
  ring

lemma gpBig_v0 : logValue gpBig 0 = XR.pinf := by
  unfold logValue
  rw [if_pos (show 0 < gpBig.t by decide), gpBig_exact0]
  apply fl_pinf_of
  have := big_pow_bound
  have := log_two_pi_le_seven
  linarith

lemma gpBig_v1 : logValue gpBig 1 = XR.ninf := by
  unfold logValue
  rw [if_pos (show 1 < gpBig.t by decide), gpBig_exact1]
  apply fl_ninf_of
  have := big_pow_bound
  have := log_two_pi_pos
  linarith

lemma gpBig_sum : xrSum gpBig.t (logValue gpBig) = XR.nan := by
  show xrSum 2 (logValue gpBig) = XR.nan
  rw [xrSum_succ, xrSum_succ, xrSum_zero, gpBig_v0, gpBig_v1]
  rfl

lemma gpBig_logEval : gaussianLogLikelihoodEval gpBig = Except.ok (logValue gpBig) := by
  unfold gaussianLogLikelihoodEval
  rw [gpBig_sum]
  simp [XR.isinf]

lemma gpOverflow_quad0 : quadDiag gpOverflow 0 = -(2 ^ 19000) := by
  unfold quadDiag
  simp [gpOverflow, Finset.sum_range_succ]
  norm_num [← pow_add]

lemma gpOverflow_exact0 :
    logValueExact gpOverflow 0 =
      (1 / 2) * 2 ^ 19000 - (1 / 2) * Real.log (2 * Real.pi) := by
  unfold logValueExact gaussianLogLikelihoodCt
  rw [gpOverflow_quad0, gaussianLogLikelihoodCp_det_one gpOverflow rfl]
  simp [gpOverflow]
  ring

lemma gpOverflow_v0 : logValue gpOverflow 0 = XR.pinf := by
  unfold logValue
  rw [if_pos (show 0 < gpOverflow.t by decide), gpOverflow_exact0]
  apply fl_pinf_of
  have := big_pow_bound
  have := log_two_pi_le_seven
  have := log_two_pi_pos
  linarith

lemma gpOverflow_logEval :
    gaussianLogLikelihoodEval gpOverflow = Except.error LError.likelihoodInfinite := by
  unfold gaussianLogLikelihoodEval
  have hs : xrSum gpOverflow.t (logValue gpOverflow) = XR.pinf := by
    show xrSum 1 (logValue gpOverflow) = XR.pinf
    rw [xrSum_succ, xrSum_zero, gpOverflow_v0]
    rfl
  rw [hs]
  simp [XR.isinf]

lemma gpOverflow_plain :
    gaussianLikelihoodEval gpOverflow = Except.ok (gaussianLikelihoodVec gpOverflow) := by
  unfold gaussianLikelihoodEval
  rw [if_neg]
  show ¬ ((1 : ℝ) < -epsLD)
  linarith [epsLD_pos]

lemma gpDim_dimFails : dimCheckFails gpDim :=
  (dimCheckFails_iff gpDim (by decide)).mpr (by decide)

lemma gpDim_exact (i : ℕ) : logValueExact gpDim i = -Real.log (2 * Real.pi) := by
  unfold logValueExact gaussianLogLikelihoodCt
  rw [quadDiag_zero gpDim (fun _ _ => rfl), gaussianLogLikelihoodCp_det_one gpDim rfl]
  norm_num [gpDim]

lemma gpDim_bound : ∀ i, i < gpDim.t → |logValueExact gpDim i| ≤ maxLD := by
  intro i _
  rw [gpDim_exact]
  apply abs_le_maxLD_of_le
  rw [abs_neg, abs_of_nonneg (le_of_lt log_two_pi_pos)]
  linarith [log_two_pi_le_seven]

lemma gpDim_pd :
    gaussianLogLikelihoodGetParameterDerivatives gpDim =
      Except.error LError.wrongDimension := by
  unfold gaussianLogLikelihoodGetParameterDerivatives
  rw [if_pos gpDim_dimFails]

lemma gpDim_vaj :
    gaussianLogLikelihoodGetValueAndJacobian gpDim =
      Except.error LError.wrongDimension := by
  unfold gaussianLogLikelihoodGetValueAndJacobian
  rw [xrSum_isinf_false gpDim gpDim_bound]
  simp [gpDim_dimFails]

lemma gpDimInf_quad0 : quadDiag gpDimInf 0 = -(2 ^ 19000) := by
  unfold quadDiag
  simp [gpDimInf, Finset.sum_range_succ]
  norm_num [← pow_add]

lemma gpDimInf_exact0 :
    logValueExact gpDimInf 0 = (1 / 2) * 2 ^ 19000 - Real.log (2 * Real.pi) := by
  unfold logValueExact gaussianLogLikelihoodCt
  rw [gpDimInf_quad0, gaussianLogLikelihoodCp_det_one gpDimInf rfl]
  norm_num [gpDimInf]
  ring

lemma gpDimInf_v0 : logValue gpDimInf 0 = XR.pinf := by
  unfold logValue
  rw [if_pos (show 0 < gpDimInf.t by decide), gpDimInf_exact0]
  apply fl_pinf_of
  have := big_pow_bound
  have := log_two_pi_le_seven
  linarith

lemma gpDimInf_vaj :
    gaussianLogLikelihoodGetValueAndJacobian gpDimInf =
      Except.error LError.likelihoodInfinite := by
  unfold gaussianLogLikelihoodGetValueAndJacobian
  have hs : xrSum gpDimInf.t (logValue gpDimInf) = XR.pinf := by
    show xrSum 1 (logValue gpDimInf) = XR.pinf
    rw [xrSum_succ, xrSum_zero, gpDimInf_v0]
    rfl
  rw [hs]
  simp [XR.isinf]

/-! Claim C1. -/

/-- Claim C1 is false as stated: on the model `gpNeg` with determinant
`-1 < -ε`, `GaussianLikelihood::operator()` fails with the
negative-determinant error, but `GaussianLogLikelihood::operator()`
performs no sign check — its clamped penalty absorbs the negative
determinant and it returns a value vector. -/
theorem claim1_counterexample :
    gaussianLikelihoodEval gpNeg = Except.error (LError.detNegative (-1)) ∧
      isOkE (gaussianLogLikelihoodEval gpNeg) = true := by
  constructor
  · unfold gaussianLikelihoodEval
    rw [if_pos (show gpNeg.det < -epsLD by show (-1 : ℝ) < -epsLD; linarith [epsLD_lt_one])]
    rfl
  · rw [gpNeg_logEval]
    rfl

/-- Claim C1 (amended): for every model with determinant below `-ε`,
the plain strategy fails with the negative-determinant `NumericalError`,
while the log strategy never reports a determinant error: it either
returns its (clamped) value vector or fails with the
infinite-likelihood error. -/
theorem claim1_theorem (gp : GP) (h : gp.det < -epsLD) :
    gaussianLikelihoodEval gp = Except.error (LError.detNegative gp.det) ∧
      (gaussianLogLikelihoodEval gp = Except.error LError.likelihoodInfinite ∨
        gaussianLogLikelihoodEval gp = Except.ok (logValue gp)) := by
  constructor
  · unfold gaussianLikelihoodEval
    rw [if_pos h]
  · unfold gaussianLogLikelihoodEval
    by_cases hg : (xrSum gp.t (logValue gp)).isinf = true
    · left
      rw [if_pos hg]
    · right
      rw [if_neg hg]

/-- Witness for the amended claim C1, at the concrete model `gpNeg`. -/
theorem claim1_witness :
    gpNeg.det < -epsLD ∧
      (gaussianLikelihoodEval gpNeg = Except.error (LError.detNegative gpNeg.det) ∧
        (gaussianLogLikelihoodEval gpNeg = Except.error LError.likelihoodInfinite ∨
          gaussianLogLikelihoodEval gpNeg = Except.ok (logValue gpNeg))) :=
  ⟨by show (-1 : ℝ) < -epsLD; linarith [epsLD_lt_one],
    claim1_theorem gpNeg (by show (-1 : ℝ) < -epsLD; linarith [epsLD_lt_one])⟩

/-! Claim C2. -/

/-- Claim C2 is false as stated: on the model `gpEps` with determinant
`d = ε` (so `0 ≤ d ≤ ε`), `GaussianLikelihood::operator()` succeeds but
its complexity penalty is the directly computed `1/√ε`, not the clamped
`1/√(min())` the claim prescribes (with no training points the returned
component is exactly the penalty). -/
theorem claim2_counterexample :
    (0 ≤ gpEps.det ∧ gpEps.det ≤ epsLD) ∧
      gaussianLikelihoodEval gpEps = Except.ok (gaussianLikelihoodVec gpEps) ∧
      gaussianLikelihoodVec gpEps 0 ≠ 1 / Real.sqrt minLD := by
  refine ⟨⟨le_of_lt epsLD_pos, le_refl _⟩, gpEps_plain, ?_⟩
  rw [gpEps_vec0]
  exact unclamped_ne_clamped

/-- Claim C2 (amended): for `0 ≤ d ≤ ε` the plain strategy succeeds and
every returned component is strictly positive (finite); the clamped
penalty `1/√(min())` is used exactly when `d = 0` (the code's branch is
`d ≤ 0`), while for `0 < d ≤ ε` the penalty is computed directly as
`1/√d`. -/
theorem claim2_theorem (gp : GP) (h0 : 0 ≤ gp.det) (h1 : gp.det ≤ epsLD) :
    gaussianLikelihoodEval gp = Except.ok (gaussianLikelihoodVec gp) ∧
      (∀ i, i < gp.t → 0 < gaussianLikelihoodVec gp i) ∧
      (gp.det = 0 → gaussianLikelihoodCp gp = 1 / Real.sqrt minLD) ∧
      (0 < gp.det → gaussianLikelihoodCp gp = 1 / Real.sqrt gp.det) := by
  refine ⟨?_, fun i hi => gaussianLikelihoodVec_pos gp hi, ?_, ?_⟩
  · unfold gaussianLikelihoodEval
    rw [if_neg (by linarith [epsLD_pos])]
  · intro hz
    unfold gaussianLikelihoodCp
    rw [if_pos (le_of_eq hz)]
  · intro hpos
    unfold gaussianLikelihoodCp
    rw [if_neg (not_le.mpr hpos)]

/-- Witness for the amended claim C2, at the concrete model `gpEps`. -/
theorem claim2_witness :
    (0 ≤ gpEps.det ∧ gpEps.det ≤ epsLD) ∧
      (gaussianLikelihoodEval gpEps = Except.ok (gaussianLikelihoodVec gpEps) ∧
        (∀ i, i < gpEps.t → 0 < gaussianLikelihoodVec gpEps i) ∧
        (gpEps.det = 0 → gaussianLikelihoodCp gpEps = 1 / Real.sqrt minLD) ∧
        (0 < gpEps.det → gaussianLikelihoodCp gpEps = 1 / Real.sqrt gpEps.det)) :=
  ⟨⟨le_of_lt epsLD_pos, le_refl _⟩,
    claim2_theorem gpEps (le_of_lt epsLD_pos) (le_refl _)⟩

/-! Claim C3. -/

/-- Claim C3 is false as stated: on the model `gpBig` the two data-fit
components overflow to `+∞` and `-∞`, the value-vector sum is NaN —
non-finite — yet `std::isinf` does not fire on NaN, so
`GaussianLogLikelihood::operator()` returns the vector instead of
failing. -/
theorem claim3_counterexample :
    gaussianLogLikelihoodEval gpBig = Except.ok (logValue gpBig) ∧
      xrSum gpBig.t (logValue gpBig) = XR.nan :=
  ⟨gpBig_logEval, gpBig_sum⟩

/-- Claim C3 (amended): the infinity guard is `std::isinf` of the sum,
so whenever `Evaluate`, `GetValueAndParameterDerivatives` or
`GetValueAndJacobian` returns a value vector, the sum of that vector is
not ±∞ — but it may still be NaN. -/
theorem claim3_theorem (gp : GP) :
    (∀ v, gaussianLogLikelihoodEval gp = Except.ok v →
      (xrSum gp.t v).isinf = false) ∧
    (∀ v d, gaussianLogLikelihoodGetValueAndParameterDerivatives gp = Except.ok (v, d) →
      (xrSum gp.t v).isinf = false) ∧
    (∀ v J, gaussianLogLikelihoodGetValueAndJacobian gp = Except.ok (v, J) →
      (xrSum gp.t v).isinf = false) := by
  refine ⟨?_, ?_, ?_⟩
  · intro v hv
    unfold gaussianLogLikelihoodEval at hv
    by_cases hg : (xrSum gp.t (logValue gp)).isinf = true
    · rw [if_pos hg] at hv
      exact absurd hv (by simp)
    · rw [if_neg hg] at hv
      rw [← Except.ok.inj hv]
      simp only [Bool.not_eq_true] at hg
      exact hg
  · intro v d hv
    unfold gaussianLogLikelihoodGetValueAndParameterDerivatives at hv
    by_cases hg : (xrSum gp.t (logValue gp)).isinf = true
    · rw [if_pos hg] at hv
      exact absurd hv (by simp)
    · rw [if_neg hg] at hv
      by_cases hd : dimCheckFails gp
      · rw [if_pos hd] at hv
        exact absurd hv (by simp)
      · rw [if_neg hd] at hv
        have := (Prod.mk.injEq _ _ _ _).mp (Except.ok.inj hv)
        rw [← this.1]
        simp only [Bool.not_eq_true] at hg
        exact hg
  · intro v J hv
    unfold gaussianLogLikelihoodGetValueAndJacobian at hv
    by_cases hg : (xrSum gp.t (logValue gp)).isinf = true
    · rw [if_pos hg] at hv
      exact absurd hv (by simp)
    · rw [if_neg hg] at hv
      by_cases hd : dimCheckFails gp
      · rw [if_pos hd] at hv
        exact absurd hv (by simp)
      · rw [if_neg hd] at hv
        have := (Prod.mk.injEq _ _ _ _).mp (Except.ok.inj hv)
        rw [← this.1]
        simp only [Bool.not_eq_true] at hg
        exact hg

/-- Witness for the amended claim C3, at the concrete model `gpOne`. -/
theorem claim3_witness :
    gaussianLogLikelihoodEval gpOne = Except.ok (logValue gpOne) ∧
      (xrSum gpOne.t (logValue gpOne)).isinf = false :=
  ⟨gpOne_logEval, (claim3_theorem gpOne).1 (logValue gpOne) gpOne_logEval⟩

/-! Claim C4. -/

/-- Claim C4 is false as universally stated: on the model `gpOverflow`
the determinant `1` is strictly inside the representable range, the
plain strategy returns a (positive, finite in exact arithmetic) value,
yet the log strategy does not return anything to compare — its
data-fit term overflows to `+∞` and it fails with the
infinite-likelihood error. -/
theorem claim4_counterexample :
    (minLD < gpOverflow.det ∧ gpOverflow.det ≤ maxLD) ∧
      isOkE (gaussianLikelihoodEval gpOverflow) = true ∧
      gaussianLogLikelihoodEval gpOverflow = Except.error LError.likelihoodInfinite := by
  refine ⟨⟨?_, ?_⟩, ?_, gpOverflow_logEval⟩
  · show minLD < 1
    exact minLD_lt_one
  · show (1 : ℝ) ≤ maxLD
    exact one_le_maxLD
  · rw [gpOverflow_plain]
    rfl

/-- Claim C4 (amended): for a determinant strictly inside the
representable range, whenever both strategies return and the i-th
log-likelihood component is finite, that component is exactly the
logarithm of the i-th plain-likelihood component (in exact real
arithmetic, the embedding's reading of agreement within floating
tolerance). -/
theorem claim4_theorem (gp : GP) (h1 : minLD < gp.det) (h2 : gp.det ≤ maxLD)
    (v : ℕ → XR) (hv : gaussianLogLikelihoodEval gp = Except.ok v)
    (w : ℕ → ℝ) (hw : gaussianLikelihoodEval gp = Except.ok w)
    (i : ℕ) (hi : i < gp.t) (x : ℝ) (hx : v i = XR.fin x) :
    x = Real.log (w i) := by
  have hdpos : 0 < gp.det := lt_trans minLD_pos h1
  have hwv : w = gaussianLikelihoodVec gp := by
    unfold gaussianLikelihoodEval at hw
    rw [if_neg (by linarith [epsLD_pos])] at hw
    exact (Except.ok.inj hw).symm
  have hvv : v = logValue gp := by
    unfold gaussianLogLikelihoodEval at hv
    by_cases hg : (xrSum gp.t (logValue gp)).isinf = true
    · rw [if_pos hg] at hv
      exact absurd hv (by simp)
    · rw [if_neg hg] at hv
      exact (Except.ok.inj hv).symm
  subst hwv
  subst hvv
  have hx2 : x = logValueExact gp i := by
    unfold logValue at hx
    rw [if_pos hi] at hx
    exact fl_eq_fin hx
  have hw2 : gaussianLikelihoodVec gp i =
      Real.exp (-(1 / 2) * quadDiag gp i) * (1 / Real.sqrt gp.det) *
        (1 / (2 * Real.pi) ^ ((gp.n : ℝ) / 2)) := by
    unfold gaussianLikelihoodVec gaussianLikelihoodCp gaussianLikelihoodCt
    rw [if_pos hi, if_neg (not_le.mpr hdpos)]
  have hexp : Real.exp (-(1 / 2) * quadDiag gp i) ≠ 0 := Real.exp_ne_zero _
  have hsq : Real.sqrt gp.det ≠ 0 := ne_of_gt (Real.sqrt_pos.mpr hdpos)
  have htp : (0 : ℝ) < 2 * Real.pi := by positivity
  have hrp : (2 * Real.pi) ^ ((gp.n : ℝ) / 2) ≠ 0 :=
    ne_of_gt (Real.rpow_pos_of_pos htp _)
  rw [hw2,
    Real.log_mul (mul_ne_zero hexp (one_div_ne_zero hsq)) (one_div_ne_zero hrp),
    Real.log_mul hexp (one_div_ne_zero hsq),
    Real.log_exp, one_div (Real.sqrt gp.det), Real.log_inv,
    one_div ((2 * Real.pi) ^ ((gp.n : ℝ) / 2)), Real.log_inv,
    Real.log_sqrt hdpos.le, Real.log_rpow htp, hx2]
  unfold logValueExact gaussianLogLikelihoodCp gaussianLogLikelihoodCt
  rw [if_neg (not_le.mpr h1), if_neg (not_lt.mpr h2)]
  ring

/-- Witness for the amended claim C4, at the concrete model `gpOne`. -/
theorem claim4_witness :
    (minLD < gpOne.det ∧ gpOne.det ≤ maxLD ∧
        logValue gpOne 0 = XR.fin (-(1 / 2) * Real.log (2 * Real.pi))) ∧
      -(1 / 2) * Real.log (2 * Real.pi) = Real.log (gaussianLikelihoodVec gpOne 0) :=
  ⟨⟨minLD_lt_one, one_le_maxLD, gpOne_v0⟩,
    claim4_theorem gpOne minLD_lt_one one_le_maxLD (logValue gpOne) gpOne_logEval
      (gaussianLikelihoodVec gpOne) gpOne_plain 0 (by decide)
      (-(1 / 2) * Real.log (2 * Real.pi)) gpOne_v0⟩

/-! Claim C5. -/

/-- Claim C5: when the derivative stack holds exactly `p` stacked
`n × n` blocks, `GetParameterDerivatives` succeeds with the length-`p`
vector whose k-th component is `0.5·trace((α·αᵗ − C)·D_k)` for
`α = C·Y`, spelled out as the explicit double sum over matrix
entries. -/
theorem claim5_theorem (gp : GP) (p : ℕ) (hn : 0 < gp.n)
    (hm : gp.Drows = p * gp.n) :
    gaussianLogLikelihoodGetParameterDerivatives gp =
      Except.ok (fun k => if k < p then deltaEntry gp k else 0) ∧
    ∀ k, k < p →
      deltaEntry gp k = (1 / 2) *
        ∑ i ∈ Finset.range gp.n, ∑ j ∈ Finset.range gp.n,
          ((∑ c ∈ Finset.range gp.t, alphaM gp i c * alphaM gp j c) - gp.C i j) *
            gp.D (k * gp.n + j) i := by
  have hnp : numParams gp = p := by
    unfold numParams
    rw [hm]
    exact Nat.mul_div_cancel _ hn
  constructor
  · unfold gaussianLogLikelihoodGetParameterDerivatives
    rw [if_neg (dimCheck_passes_of_dvd gp hn ⟨p, by rw [hm, Nat.mul_comm]⟩)]
    unfold deltaVec
    rw [hnp]
  · intro k _
    rfl

/-- Witness for claim C5, at the concrete model `gpOne` with `p = 1`. -/
theorem claim5_witness :
    (0 < gpOne.n ∧ gpOne.Drows = 1 * gpOne.n) ∧
      (gaussianLogLikelihoodGetParameterDerivatives gpOne =
        Except.ok (fun k => if k < 1 then deltaEntry gpOne k else 0) ∧
      ∀ k, k < 1 →
        deltaEntry gpOne k = (1 / 2) *
          ∑ i ∈ Finset.range gpOne.n, ∑ j ∈ Finset.range gpOne.n,
            ((∑ c ∈ Finset.range gpOne.t, alphaM gpOne i c * alphaM gpOne j c) -
                gpOne.C i j) * gpOne.D (k * gpOne.n + j) i) :=
  ⟨⟨by decide, by decide⟩, claim5_theorem gpOne 1 (by decide) (by decide)⟩

/-! Claim C6. -/

/-- Claim C6 is false as stated: on the model `gpDimInf` the derivative
stack has 3 rows over 2 columns (not an exact multiple), yet
`GetValueAndJacobian` fails with the infinite-likelihood
`NumericalError` — not with the `DimensionError` — because the value
computation runs, and fails, before the dimension test. -/
theorem claim6_counterexample :
    ¬ gpDimInf.n ∣ gpDimInf.Drows ∧
      gaussianLogLikelihoodGetValueAndJacobian gpDimInf =
        Except.error LError.likelihoodInfinite :=
  ⟨by decide, gpDimInf_vaj⟩

/-- Claim C6 (amended): when the derivative-stack row count is not an
exact multiple of its column count, `GetParameterDerivatives` always
fails with the `DimensionError` (regardless of the values in D), while
the combined operations fail with the `DimensionError` unless the
value-side infinity guard fires first, in which case they fail with the
value-side `NumericalError`. -/
theorem claim6_theorem (gp : GP) (hn : 0 < gp.n) (hd : ¬ gp.n ∣ gp.Drows) :
    gaussianLogLikelihoodGetParameterDerivatives gp =
        Except.error LError.wrongDimension ∧
      (gaussianLogLikelihoodGetValueAndJacobian gp =
          Except.error LError.wrongDimension ∨
        gaussianLogLikelihoodGetValueAndJacobian gp =
          Except.error LError.likelihoodInfinite) ∧
      (gaussianLogLikelihoodGetValueAndParameterDerivatives gp =
          Except.error LError.wrongDimension ∨
        gaussianLogLikelihoodGetValueAndParameterDerivatives gp =
          Except.error LError.likelihoodInfinite) := by
  have hf : dimCheckFails gp := (dimCheckFails_iff gp hn).mpr hd
  refine ⟨?_, ?_, ?_⟩
  · unfold gaussianLogLikelihoodGetParameterDerivatives
    rw [if_pos hf]
  · unfold gaussianLogLikelihoodGetValueAndJacobian
    by_cases hg : (xrSum gp.t (logValue gp)).isinf = true
    · right
      rw [if_pos hg]
    · left
      rw [if_neg hg, if_pos hf]
  · unfold gaussianLogLikelihoodGetValueAndParameterDerivatives
    by_cases hg : (xrSum gp.t (logValue gp)).isinf = true
    · right
      rw [if_pos hg]
    · left
      rw [if_neg hg, if_pos hf]

/-- Witness for the amended claim C6, at the concrete model `gpDim`. -/
theorem claim6_witness :
    (0 < gpDim.n ∧ ¬ gpDim.n ∣ gpDim.Drows) ∧
      (gaussianLogLikelihoodGetParameterDerivatives gpDim =
          Except.error LError.wrongDimension ∧
        (gaussianLogLikelihoodGetValueAndJacobian gpDim =
            Except.error LError.wrongDimension ∨
          gaussianLogLikelihoodGetValueAndJacobian gpDim =
            Except.error LError.likelihoodInfinite) ∧
        (gaussianLogLikelihoodGetValueAndParameterDerivatives gpDim =
            Except.error LError.wrongDimension ∨
          gaussianLogLikelihoodGetValueAndParameterDerivatives gpDim =
            Except.error LError.likelihoodInfinite)) :=
  ⟨⟨by decide, by decide⟩, claim6_theorem gpDim (by decide) (by decide)⟩

/-! Claim C7. -/

/-- Claim C7: `GetValueAndParameterDerivatives` is exactly the monadic
composition of `operator()` and `GetParameterDerivatives` — when both
succeed it returns their pair, and a value-side failure is reported
before a derivative-side failure because the value is computed
first. -/
theorem claim7_theorem (gp : GP) :
    gaussianLogLikelihoodGetValueAndParameterDerivatives gp =
      (gaussianLogLikelihoodEval gp).bind (fun v =>
        (gaussianLogLikelihoodGetParameterDerivatives gp).map (fun d => (v, d))) := by
  unfold gaussianLogLikelihoodGetValueAndParameterDerivatives gaussianLogLikelihoodEval
    gaussianLogLikelihoodGetParameterDerivatives
  by_cases hg : (xrSum gp.t (logValue gp)).isinf = true
  · simp [hg, Except.bind]
  · by_cases hd : dimCheckFails gp
    · simp [hg, hd, Except.bind, Except.map]
    · simp [hg, hd, Except.bind, Except.map]

/-! Claim C8. -/

/-- Claim C8: for a single-output model on which both operations
succeed, row 0 of the Jacobian returned by `GetValueAndJacobian` agrees
component by component with the vector returned by
`GetParameterDerivatives` (exactly, in exact real arithmetic). -/
theorem claim8_theorem (gp : GP) (ht : gp.t = 1)
    (v : ℕ → XR) (J : ℕ → ℕ → ℝ)
    (hJ : gaussianLogLikelihoodGetValueAndJacobian gp = Except.ok (v, J))
    (d : ℕ → ℝ)
    (hd : gaussianLogLikelihoodGetParameterDerivatives gp = Except.ok d) :
    ∀ k, J 0 k = d k := by
  have hJ2 : J = jacMat gp := by
    unfold gaussianLogLikelihoodGetValueAndJacobian at hJ
    by_cases hg : (xrSum gp.t (logValue gp)).isinf = true
    · rw [if_pos hg] at hJ
      exact absurd hJ (by simp)
    · rw [if_neg hg] at hJ
      by_cases hdim : dimCheckFails gp
      · rw [if_pos hdim] at hJ
        exact absurd hJ (by simp)
      · rw [if_neg hdim] at hJ
        exact ((Prod.mk.injEq _ _ _ _).mp (Except.ok.inj hJ)).2.symm
  have hd2 : d = deltaVec gp := by
    unfold gaussianLogLikelihoodGetParameterDerivatives at hd
    by_cases hdim : dimCheckFails gp
    · rw [if_pos hdim] at hd
      exact absurd hd (by simp)
    · rw [if_neg hdim] at hd
      exact (Except.ok.inj hd).symm
  subst hJ2
  subst hd2
  intro k
  unfold jacMat deltaVec
  by_cases hk : k < numParams gp
  · rw [if_pos ⟨by rw [ht]; exact Nat.one_pos, hk⟩, if_pos hk]
    have ha : ∀ r s : ℕ, aaT gp r s = alphaCol gp 0 r * alphaCol gp 0 s := by
      intro r s
      unfold aaT
      rw [ht, Finset.sum_range_one]
      rfl
    unfold jacEntry deltaEntry traceN matMul
    congr 1
    apply Finset.sum_congr rfl
    intro i _
    apply Finset.sum_congr rfl
    intro c _
    show (alphaCol gp 0 i * alphaCol gp 0 c - gp.C i c) * dBlock gp k c i =
      (aaT gp i c - gp.C i c) * dBlock gp k c i
    rw [ha i c]
  · rw [if_neg (fun hh => hk hh.2), if_neg hk]

/-- Witness for claim C8, at the concrete model `gpOne`. -/
theorem claim8_witness :
    (gpOne.t = 1 ∧
      gaussianLogLikelihoodGetValueAndJacobian gpOne =
        Except.ok (logValue gpOne, jacMat gpOne) ∧
      gaussianLogLikelihoodGetParameterDerivatives gpOne =
        Except.ok (deltaVec gpOne)) ∧
    ∀ k, jacMat gpOne 0 k = deltaVec gpOne k :=
  ⟨⟨rfl, gpOne_vaj, gpOne_pd⟩,
    claim8_theorem gpOne rfl (logValue gpOne) (jacMat gpOne) gpOne_vaj
      (deltaVec gpOne) gpOne_pd⟩

/-! Claim C9. -/

/-- Claim C9: every operation `GaussianLikelihood` does not override
falls through to the base-class default and fails with the
`NotImplemented` error naming that operation — `GetParameterDerivatives`,
`GetValueAndParameterDerivatives` and `GetValueAndJacobian` — while its
overridden `operator()` never produces a `NotImplemented` failure. -/
theorem claim9_theorem (gp : GP) :
    gaussianLikelihoodGetParameterDerivatives gp =
        Except.error (LError.notImplemented LOp.parameterDerivativesOp) ∧
      gaussianLikelihoodGetValueAndParameterDerivatives gp =
        Except.error (LError.notImplemented LOp.valueAndParameterDerivativesOp) ∧
      gaussianLikelihoodGetValueAndJacobian gp =
        Except.error (LError.notImplemented LOp.valueAndJacobianOp) ∧
      ∀ op, gaussianLikelihoodEval gp ≠ Except.error (LError.notImplemented op) := by
  refine ⟨rfl, rfl, rfl, ?_⟩
  intro op
  unfold gaussianLikelihoodEval
  by_cases h : gp.det < -epsLD
  · rw [if_pos h]
    simp
  · rw [if_neg h]
    simp

/-- Witness for claim C9, at the concrete model `gpOne` and the
evaluate operation. -/
theorem claim9_witness :
    gaussianLikelihoodGetParameterDerivatives gpOne =
        Except.error (LError.notImplemented LOp.parameterDerivativesOp) ∧
      gaussianLikelihoodGetValueAndParameterDerivatives gpOne =
        Except.error (LError.notImplemented LOp.valueAndParameterDerivativesOp) ∧
      gaussianLikelihoodGetValueAndJacobian gpOne =
        Except.error (LError.notImplemented LOp.valueAndJacobianOp) ∧
      gaussianLikelihoodEval gpOne ≠ Except.error (LError.notImplemented LOp.evalOp) :=
  ⟨(claim9_theorem gpOne).1, (claim9_theorem gpOne).2.1, (claim9_theorem gpOne).2.2.1,
    (claim9_theorem gpOne).2.2.2 LOp.evalOp⟩

/-! Claim C10. -/

/-- Claim C10: whenever the plain strategy returns a vector, every
component within the output range is strictly positive (hence
nonnegative), being a product of an exponential and the two positive
factors `cp` and `ct`; its logarithm is therefore well defined. -/
theorem claim10_theorem (gp : GP) (v : ℕ → ℝ)
    (h : gaussianLikelihoodEval gp = Except.ok v) :
    ∀ i, i < gp.t → 0 < v i := by
  have hv : v = gaussianLikelihoodVec gp := by
    unfold gaussianLikelihoodEval at h
    by_cases hd : gp.det < -epsLD
    · rw [if_pos hd] at h
      exact absurd h (by simp)
    · rw [if_neg hd] at h
      exact (Except.ok.inj h).symm
  subst hv
  intro i hi
  exact gaussianLikelihoodVec_pos gp hi

/-- Witness for claim C10, at the concrete model `gpOne`. -/
theorem claim10_witness :
    gaussianLikelihoodEval gpOne = Except.ok (gaussianLikelihoodVec gpOne) ∧
      ∀ i, i < gpOne.t → 0 < gaussianLikelihoodVec gpOne i :=
  ⟨gpOne_plain, claim10_theorem gpOne (gaussianLikelihoodVec gpOne) gpOne_plain⟩

end
